import Mathlib

/-!
Shallow embedding of the cli-mcp-client repository (TypeScript) in Lean 4.

The repository has three components:
* the query orchestrator `processQuery` (src/unnamed/part_000, exported handler),
* the interactive session loop `chatLoop` (src/src/client/chat-loop.ts),
* the connection manager `connectToServer` (src/src/client/connection.ts),
plus the startup sequence of the entry module (bottom of src/unnamed/part_000).

External boundaries (the Anthropic messages API and the MCP tool channel) are
modelled as oracles that may depend on the whole interaction history so far and
may either return a value or throw.  Every call actually made is recorded in an
event trace, so claims about the number, order and payload of calls are stated
over that trace.
-/

namespace CliMcp

/-- Role of a conversation turn, mirroring the `role` field of `MessageParam`. -/
inductive Role where
  | user
  | assistant
deriving DecidableEq, Repr

/-- One conversation turn, mirroring `MessageParam` as used by the handler:
the content is the query string or a tool result delivered as a string. -/
structure MessageParam where
  role : Role
  content : String
deriving DecidableEq, Repr

/-- Opaque serialized tool arguments: the handler passes `content.input` through
to `callTool` unchanged and only ever serializes it (JSON.stringify) for the
diagnostic line, so a single serialized form models it faithfully. -/
structure ToolArgs where
  json : String
deriving DecidableEq, Repr

/-- One content item of a model response: either a text block or a tool-use
request, mirroring `content.type === "text" / "tool_use"` in the handler. -/
inductive ContentItem where
  | text (s : String)
  | toolUse (name : String) (args : ToolArgs)
deriving DecidableEq, Repr

/-- A model response is its ordered list of content items. -/
structure ModelResponse where
  content : List ContentItem
deriving DecidableEq, Repr

/-- A thrown JavaScript value: either an `Error` instance with its message, or
some non-`Error` value (the catch block distinguishes exactly these two). -/
inductive Thrown where
  | err (message : String)
  | nonErr
deriving DecidableEq, Repr

/-- One observable external call made during query resolution, with its payload
and outcome.  `modelCall` records the messages passed and whether the tool
catalog was attached; `toolCall` records the name, arguments and result. -/
inductive Event where
  | modelCall (messages : List MessageParam) (withTools : Bool) (response : ModelResponse)
  | toolCall (name : String) (args : ToolArgs) (result : String)
deriving DecidableEq, Repr

/-- Behaviour of the two external boundaries.  Each oracle receives the event
history so far, so arbitrary stateful behaviours of the real services are
representable.  A `.error` result models the call throwing. -/
structure Env where
  modelApi : List Event → List MessageParam → Bool → Except Thrown ModelResponse
  toolApi : List Event → String → ToolArgs → Except Thrown String

/-- Result of the try-block of `processQuery`: either the final state (events
made, conversation, output accumulator), or a thrown value with the events
made before the throw. -/
inductive Outcome where
  | ok (events : List Event) (messages : List MessageParam) (finalText : List String)
  | thrown (events : List Event) (t : Thrown)
deriving DecidableEq, Repr

/-- The diagnostic line the handler pushes for a tool call (part_000 line 73). -/
def callingLine (name : String) (args : ToolArgs) : String :=
  "[Calling tool " ++ name ++ " with args " ++ args.json ++ "]"

/-- The text extracted from the first follow-up content item (part_000 lines
93-97): the item's text when it is a text item, the empty string otherwise. -/
def firstText : ContentItem → String
  | ContentItem.text s => s
  | ContentItem.toolUse _ _ => ""

/-- Message thrown when `followUpResponse.content[0]` is `undefined` and the
handler reads `.type` on it. -/
def undefinedTypeMessage : String :=
  "Cannot read properties of undefined (reading 'type')"

/-- The for-loop of `processQuery` (part_000 lines 57-99): processes the round-1
content items in order, threading the event trace, the conversation array and
the `finalText` accumulator. -/
def runItems (env : Env) (items : List ContentItem) (events : List Event)
    (messages : List MessageParam) (finalText : List String) : Outcome :=
  match items with
  | [] => Outcome.ok events messages finalText
  | ContentItem.text s :: rest =>
      runItems env rest events messages (finalText ++ [s])
  | ContentItem.toolUse name args :: rest =>
      match env.toolApi events name args with
      | Except.error t => Outcome.thrown events t
      | Except.ok result =>
        match env.modelApi (events ++ [Event.toolCall name args result])
            (messages ++ [⟨Role.user, result⟩]) false with
        | Except.error t => Outcome.thrown (events ++ [Event.toolCall name args result]) t
        | Except.ok resp =>
          match resp.content with
          | [] => Outcome.thrown
              (events ++ [Event.toolCall name args result,
                Event.modelCall (messages ++ [⟨Role.user, result⟩]) false resp])
              (Thrown.err undefinedTypeMessage)
          | first :: _ =>
              runItems env rest
                (events ++ [Event.toolCall name args result,
                  Event.modelCall (messages ++ [⟨Role.user, result⟩]) false resp])
                (messages ++ [⟨Role.user, result⟩])
                (finalText ++ [callingLine name args, firstText first])

/-- The initial conversation turn (part_000 lines 30-35). -/
def userTurn (query : String) : MessageParam :=
  ⟨Role.user, query⟩

/-- The try-block of `processQuery` (part_000 lines 38-102): round-1 model call
with the tool catalog attached, then the item loop. -/
def processQueryCore (env : Env) (query : String) : Outcome :=
  match env.modelApi [] [userTurn query] true with
  | Except.error t => Outcome.thrown [] t
  | Except.ok response =>
      runItems env response.content
        [Event.modelCall [userTurn query] true response] [userTurn query] []

/-- The string the catch block returns (part_000 lines 103-108). -/
def errString : Thrown → String
  | Thrown.err message => "Error: " ++ message
  | Thrown.nonErr => "Error: Unknown error occurred"

/-- `processQuery` itself: the try-block result joined with newlines on
success, the catch-block string on a throw. -/
def processQuery (env : Env) (query : String) : String :=
  match processQueryCore env query with
  | Outcome.ok _ _ finalText => String.intercalate "\n" finalText
  | Outcome.thrown _ t => errString t

/-- Events of an outcome. -/
def Outcome.events : Outcome → List Event
  | Outcome.ok events _ _ => events
  | Outcome.thrown events _ => events

/-! Session loop (src/src/client/chat-loop.ts). -/

/-- Observable events of the interactive session: issuing a prompt, invoking
the orchestrator on an input line, printing a returned string. -/
inductive SessionEvent where
  | prompt
  | orchCall (input : String)
  | printOut (output : String)
deriving DecidableEq, Repr

/-- JavaScript `toLowerCase` on the ASCII strings involved: per-character
lower-casing, written over the character list so it reduces structurally. -/
def jsToLowerCase (s : String) : String :=
  String.mk (s.data.map Char.toLower)

/-- JavaScript `trim`: strips leading and trailing whitespace, written over the
character list so it reduces structurally. -/
def jsTrim (s : String) : String :=
  String.mk (((s.data.dropWhile Char.isWhitespace).reverse.dropWhile
    Char.isWhitespace).reverse)

/-- The `while (true)` loop of `chatLoop`, driven by the finite list of input
lines the operator will type.  Each iteration issues a prompt and reads a line;
the loop breaks when `message.toLowerCase() === "quit"` (chat-loop.ts line 17),
otherwise it passes the raw line to the orchestrator and prints the result. -/
def chatLoopEvents (orch : String → String) : List String → List SessionEvent
  | [] => []
  | message :: rest =>
      if jsToLowerCase message = "quit" then
        [SessionEvent.prompt]
      else
        SessionEvent.prompt :: SessionEvent.orchCall message ::
          SessionEvent.printOut (orch message) :: chatLoopEvents orch rest

/-! Connection manager (src/src/client/connection.ts). -/

/-- JavaScript `endsWith` on the strings involved, written over the character
list so it reduces structurally. -/
def jsEndsWith (s pat : String) : Bool :=
  List.isSuffixOf pat.data s.data

/-- A tool as returned by the MCP discovery call: schema under `inputSchema`.
The schema type is a parameter: the code never inspects the schema value. -/
structure DiscoveredTool (σ : Type) where
  name : String
  description : String
  inputSchema : σ
deriving DecidableEq, Repr

/-- A tool descriptor in the shape the Anthropic API expects: schema under
`input_schema`; the structure has no `inputSchema` field. -/
structure Tool (σ : Type) where
  name : String
  description : String
  input_schema : σ
deriving DecidableEq, Repr

/-- The per-tool mapping of connection.ts lines 68-74. -/
def toAnthropicTool {σ : Type} (t : DiscoveredTool σ) : Tool σ :=
  { name := t.name, description := t.description, input_schema := t.inputSchema }

/-- Host facts read from `process`: `process.platform` and `process.execPath`. -/
structure ConnConfig where
  platform : String
  execPath : String
deriving DecidableEq, Repr

/-- Observable connection events: creating the stdio transport with a command,
completing `mcp.connect`, completing `listTools`. -/
inductive ConnEvent where
  | transportCreated (command : String) (scriptArg : String)
  | connected
  | toolsListed
deriving DecidableEq, Repr

/-- Behaviour of the external MCP client during connection. -/
structure ConnEnv (σ : Type) where
  connectResult : Except Thrown Unit
  listToolsResult : Except Thrown (List (DiscoveredTool σ))

/-- The interpreter command selection of connection.ts lines 51-55:
`isPy ? (win32 ? python : python3) : process.execPath`. -/
def connCommand (cfg : ConnConfig) (serverScriptPath : String) : String :=
  if jsEndsWith serverScriptPath ".py" then
    if cfg.platform = "win32" then "python" else "python3"
  else cfg.execPath

/-- `connectToServer` (connection.ts lines 39-84): extension check, transport
creation, connect, tool discovery, schema-field rename.  The catch block
rethrows, so failures propagate as `.error`. -/
def connectToServer {σ : Type} (cfg : ConnConfig) (cenv : ConnEnv σ)
    (serverScriptPath : String) : Except Thrown (List (Tool σ)) × List ConnEvent :=
  if !(jsEndsWith serverScriptPath ".js") && !(jsEndsWith serverScriptPath ".py") then
    (Except.error (Thrown.err "Server script must be a .js or .py file"), [])
  else
    match cenv.connectResult with
    | Except.error t =>
        (Except.error t,
         [ConnEvent.transportCreated (connCommand cfg serverScriptPath) serverScriptPath])
    | Except.ok _ =>
      match cenv.listToolsResult with
      | Except.error t =>
          (Except.error t,
           [ConnEvent.transportCreated (connCommand cfg serverScriptPath) serverScriptPath,
            ConnEvent.connected])
      | Except.ok ts =>
          (Except.ok (ts.map toAnthropicTool),
           [ConnEvent.transportCreated (connCommand cfg serverScriptPath) serverScriptPath,
            ConnEvent.connected, ConnEvent.toolsListed])

/-! Startup sequence (bottom of src/unnamed/part_000, lines 133-180). -/

/-- How a run of the entry module ends before the chat loop would take over. -/
inductive StartupResult where
  | abortedMissingKey (message : String)
  | usageShown
  | ran (connectOk : Bool)
deriving DecidableEq, Repr

/-- Observable startup events. -/
inductive StartupEvent where
  | connectAttempt (path : String)
  | chatStarted
deriving DecidableEq, Repr

/-- The entry module: after `dotenv.config()` the credential check at lines
136-139 throws before `main` runs; `main` (lines 165-178) prints usage when no
script argument is given, otherwise attempts the connection and, on success,
starts the chat loop. -/
def startup (apiKey : Option String) (argv : List String)
    (connectOutcome : Except Thrown Unit) : StartupResult × List StartupEvent :=
  match apiKey with
  | none => (StartupResult.abortedMissingKey "ANTHROPIC_API_KEY is not set", [])
  | some _ =>
    if argv.length < 3 then
      (StartupResult.usageShown, [])
    else
      match connectOutcome with
      | Except.error _ =>
          (StartupResult.ran false, [StartupEvent.connectAttempt (argv.getD 2 "")])
      | Except.ok _ =>
          (StartupResult.ran true,
           [StartupEvent.connectAttempt (argv.getD 2 ""), StartupEvent.chatStarted])

/-! Trace projections used to state the claims. -/

/-- The shape of an external call: round-1 model call (tools attached),
follow-up model call (no tools), or tool invocation. -/
inductive CallShape where
  | mcT
  | mcF
  | tc
deriving DecidableEq, Repr

/-- Shape of one event. -/
def evShape : Event → CallShape
  | Event.modelCall _ true _ => CallShape.mcT
  | Event.modelCall _ false _ => CallShape.mcF
  | Event.toolCall _ _ _ => CallShape.tc

/-- The calls one content item gives rise to: none for a text item, one tool
invocation followed by one follow-up model call for a tool-use item. -/
def itemShape : ContentItem → List CallShape
  | ContentItem.text _ => []
  | ContentItem.toolUse _ _ => [CallShape.tc, CallShape.mcF]

/-- Concatenated shapes of a list of content items. -/
def shapesOfItems : List ContentItem → List CallShape
  | [] => []
  | i :: rest => itemShape i ++ shapesOfItems rest

/-- The tool-use requests of a response, in order: name and arguments. -/
def toolUseReqs : List ContentItem → List (String × ToolArgs)
  | [] => []
  | ContentItem.text _ :: rest => toolUseReqs rest
  | ContentItem.toolUse n a :: rest => (n, a) :: toolUseReqs rest

/-- The texts of a list of content items, in order. -/
def textsOf : List ContentItem → List String
  | [] => []
  | ContentItem.text s :: rest => s :: textsOf rest
  | ContentItem.toolUse _ _ :: rest => textsOf rest

/-- Whether a content item is a text item. -/
def ContentItem.isText : ContentItem → Bool
  | ContentItem.text _ => true
  | ContentItem.toolUse _ _ => false

/-- The tool invocations of a trace, in order: name and arguments passed. -/
def toolCallsOf (evs : List Event) : List (String × ToolArgs) :=
  evs.filterMap fun e =>
    match e with
    | Event.toolCall n a _ => some (n, a)
    | Event.modelCall _ _ _ => none

/-- The tool results of a trace, in order. -/
def toolResultsOf (evs : List Event) : List String :=
  evs.filterMap fun e =>
    match e with
    | Event.toolCall _ _ r => some r
    | Event.modelCall _ _ _ => none

/-- The conversation snapshots passed to model calls in a trace, in order. -/
def modelCallSnaps (evs : List Event) : List (List MessageParam) :=
  evs.filterMap fun e =>
    match e with
    | Event.modelCall m _ _ => some m
    | Event.toolCall _ _ _ => none

/-- The conversation snapshots a run produces by appending `turns` to `base`
one turn at a time: each snapshot extends the previous one by one turn. -/
def snapshotChain (base : List MessageParam) : List MessageParam → List (List MessageParam)
  | [] => []
  | t :: rest => (base ++ [t]) :: snapshotChain (base ++ [t]) rest

/-- Full characterization of a successful run of the item loop: the events and
conversation turns it adds, their shapes, payloads and order. -/
theorem runItems_ok_spec (env : Env) (items : List ContentItem) :
    ∀ evs0 msgs0 ft0 evs msgs ft,
    runItems env items evs0 msgs0 ft0 = Outcome.ok evs msgs ft →
    ∃ extra turns,
      evs = evs0 ++ extra ∧
      msgs = msgs0 ++ turns ∧
      extra.map evShape = shapesOfItems items ∧
      toolCallsOf extra = toolUseReqs items ∧
      (∀ m ∈ turns, m.role = Role.user) ∧
      turns.map MessageParam.content = toolResultsOf extra ∧
      modelCallSnaps extra = snapshotChain msgs0 turns := by
  induction items with
  | nil =>
    intro evs0 msgs0 ft0 evs msgs ft h
    simp only [runItems, Outcome.ok.injEq] at h
    obtain ⟨he, hm, _⟩ := h
    exact ⟨[], [], by simp [he.symm, hm.symm, shapesOfItems, toolUseReqs,
      toolCallsOf, toolResultsOf, modelCallSnaps, snapshotChain]⟩
  | cons item rest ih =>
    intro evs0 msgs0 ft0 evs msgs ft h
    cases item with
    | text s =>
      simp only [runItems] at h
      obtain ⟨extra, turns, he, hm, hsh, htc, hrole, hcont, hsnap⟩ :=
        ih _ _ _ _ _ _ h
      exact ⟨extra, turns, he, hm, by simp [shapesOfItems, itemShape, hsh],
        by simp [toolUseReqs, htc], hrole, hcont, hsnap⟩
    | toolUse n a =>
      simp only [runItems] at h
      split at h
      · exact Outcome.noConfusion h
      next r htool =>
        split at h
        · exact Outcome.noConfusion h
        next resp hmc =>
          split at h
          · exact Outcome.noConfusion h
          next first tail hc =>
            obtain ⟨extra, turns, he, hm, hsh, htc, hrole, hcont, hsnap⟩ :=
              ih _ _ _ _ _ _ h
            refine ⟨Event.toolCall n a r ::
              Event.modelCall (msgs0 ++ [⟨Role.user, r⟩]) false resp :: extra,
              (⟨Role.user, r⟩ : MessageParam) :: turns, ?_, ?_, ?_, ?_, ?_, ?_, ?_⟩
            · simp [he, List.append_assoc]
            · simp [hm, List.append_assoc]
            · simp [evShape, shapesOfItems, itemShape, hsh]
            · simp [toolCallsOf, toolUseReqs] at htc ⊢
              exact htc
            · intro m hmem
              rcases List.mem_cons.mp hmem with hmem | hmem
              · simp [hmem]
              · exact hrole m hmem
            · simp [toolResultsOf] at hcont ⊢
              exact hcont
            · simp [modelCallSnaps, snapshotChain] at hsnap ⊢
              exact hsnap

/-- A run over text-only items makes no external call and only accumulates the
texts, in order. -/
theorem runItems_all_text (env : Env) (items : List ContentItem) :
    ∀ evs0 msgs0 ft0, (∀ i ∈ items, i.isText = true) →
    runItems env items evs0 msgs0 ft0 = Outcome.ok evs0 msgs0 (ft0 ++ textsOf items) := by
  induction items with
  | nil => intro evs0 msgs0 ft0 _; simp [runItems, textsOf]
  | cons item rest ih =>
    intro evs0 msgs0 ft0 hall
    cases item with
    | text s =>
      simp only [runItems]
      rw [ih _ _ _ fun i hi => hall i (List.mem_cons_of_mem _ hi)]
      simp [textsOf]
    | toolUse n a =>
      have := hall _ (List.mem_cons_self _ _)
      simp [ContentItem.isText] at this

/-- The trace records one result per tool invocation. -/
theorem toolResultsOf_length (evs : List Event) :
    (toolResultsOf evs).length = (toolCallsOf evs).length := by
  induction evs with
  | nil => rfl
  | cons e rest ih =>
    cases e <;> simp [toolResultsOf, toolCallsOf] at ih ⊢ <;> exact ih

/-- A non-text first follow-up item contributes the empty string. -/
theorem firstText_of_not_text (first : ContentItem) (h : first.isText = false) :
    firstText first = "" := by
  cases first with
  | text s => simp [ContentItem.isText] at h
  | toolUse n a => rfl

/-! Claim theorems. -/

/-- Claim C1: for a round-1 response, a successful run performs one tool-channel
invocation and one follow-up model call per `tool_use` item, in response order,
each invocation carrying the item's name and arguments, and every follow-up
model call is made without the tool catalog attached. -/
theorem processQuery_tool_trace (env : Env) (query : String)
    (response : ModelResponse) (evs : List Event) (msgs : List MessageParam)
    (ft : List String)
    (hresp : env.modelApi [] [userTurn query] true = Except.ok response)
    (hok : processQueryCore env query = Outcome.ok evs msgs ft) :
    evs.map evShape = CallShape.mcT :: shapesOfItems response.content ∧
    toolCallsOf evs = toolUseReqs response.content := by
  simp only [processQueryCore, hresp] at hok
  obtain ⟨extra, turns, he, hm, hsh, htc, hrole, hcont, hsnap⟩ :=
    runItems_ok_spec env response.content _ _ _ _ _ _ hok
  subst he
  constructor
  · simp [evShape, hsh]
  · simp only [toolCallsOf, List.filterMap_cons] at htc ⊢
    simpa using htc

/-- Environment for the C1 witness: round 1 requests two tools, every
follow-up returns a single text item. -/
def envTwoTools : Env where
  modelApi := fun _ _ withTools =>
    if withTools then
      Except.ok ⟨[ContentItem.toolUse "alpha" ⟨"1"⟩, ContentItem.toolUse "beta" ⟨"2"⟩]⟩
    else Except.ok ⟨[ContentItem.text "done"]⟩
  toolApi := fun _ _ _ => Except.ok "res"

def c1Response : ModelResponse :=
  ⟨[ContentItem.toolUse "alpha" ⟨"1"⟩, ContentItem.toolUse "beta" ⟨"2"⟩]⟩

def c1Events : List Event :=
  [Event.modelCall [userTurn "q"] true c1Response,
   Event.toolCall "alpha" ⟨"1"⟩ "res",
   Event.modelCall [userTurn "q", ⟨Role.user, "res"⟩] false ⟨[ContentItem.text "done"]⟩,
   Event.toolCall "beta" ⟨"2"⟩ "res",
   Event.modelCall [userTurn "q", ⟨Role.user, "res"⟩, ⟨Role.user, "res"⟩] false
     ⟨[ContentItem.text "done"]⟩]

theorem processQuery_tool_trace_witness :
    c1Events.map evShape = CallShape.mcT :: shapesOfItems c1Response.content ∧
    toolCallsOf c1Events = toolUseReqs c1Response.content :=
  processQuery_tool_trace envTwoTools "q" c1Response c1Events
    [userTurn "q", ⟨Role.user, "res"⟩, ⟨Role.user, "res"⟩]
    [callingLine "alpha" ⟨"1"⟩, "done", callingLine "beta" ⟨"2"⟩, "done"]
    rfl rfl

/-- Claim C2: when every round-1 content item is text, the orchestrator returns
exactly those texts joined with newlines, and the trace holds no tool call and
no second model call. -/
theorem processQuery_pure_text (env : Env) (query : String)
    (response : ModelResponse)
    (hresp : env.modelApi [] [userTurn query] true = Except.ok response)
    (hall : ∀ i ∈ response.content, i.isText = true) :
    processQuery env query = String.intercalate "\n" (textsOf response.content) ∧
    (processQueryCore env query).events =
      [Event.modelCall [userTurn query] true response] := by
  have hrun := runItems_all_text env response.content
    [Event.modelCall [userTurn query] true response] [userTurn query] [] hall
  constructor
  · simp [processQuery, processQueryCore, hresp, hrun]
  · simp [processQueryCore, hresp, hrun, Outcome.events]

/-- Environment for the C2 witness: the model always answers with the single
text item of the 2+2 scenario. -/
def envPureText : Env where
  modelApi := fun _ _ _ => Except.ok ⟨[ContentItem.text "4"]⟩
  toolApi := fun _ _ _ => Except.error (Thrown.err "no tool call expected")

theorem processQuery_pure_text_witness :
    processQuery envPureText "What is 2+2?" =
      String.intercalate "\n" (textsOf [ContentItem.text "4"]) ∧
    (processQueryCore envPureText "What is 2+2?").events =
      [Event.modelCall [userTurn "What is 2+2?"] true ⟨[ContentItem.text "4"]⟩] :=
  processQuery_pure_text envPureText "What is 2+2?" ⟨[ContentItem.text "4"]⟩ rfl
    (by decide)

/-- Claim C3: whenever the try-block throws, the orchestrator still returns a
string and that string begins with the prefix given by the catch block. -/
theorem processQuery_error_string (env : Env) (query : String)
    (evs : List Event) (t : Thrown)
    (h : processQueryCore env query = Outcome.thrown evs t) :
    ∃ rest, processQuery env query = "Error: " ++ rest := by
  cases t with
  | err m => exact ⟨m, by simp [processQuery, h, errString]⟩
  | nonErr => exact ⟨"Unknown error occurred", by simp [processQuery, h, errString]⟩

/-- Environment for the C3 witness: every external call throws. -/
def envAlwaysFails : Env where
  modelApi := fun _ _ _ => Except.error (Thrown.err "boom")
  toolApi := fun _ _ _ => Except.error (Thrown.err "boom")

theorem processQuery_error_string_witness :
    ∃ rest, processQuery envAlwaysFails "hello" = "Error: " ++ rest :=
  processQuery_error_string envAlwaysFails "hello" [] (Thrown.err "boom") rfl

/-- Claim C10: when the try-block throws, the returned string is exactly the
catch-block message; nothing accumulated before the failure survives. -/
theorem processQuery_discards_accumulated (env : Env) (query : String)
    (evs : List Event) (t : Thrown)
    (h : processQueryCore env query = Outcome.thrown evs t) :
    processQuery env query = errString t := by
  simp [processQuery, h]

/-- Environment for the C10 witness: round 1 yields a text item (which the
accumulator records) and then a tool request whose execution throws. -/
def envFailsMidway : Env where
  modelApi := fun _ _ withTools =>
    if withTools then
      Except.ok ⟨[ContentItem.text "partial", ContentItem.toolUse "gamma" ⟨"3"⟩]⟩
    else Except.ok ⟨[ContentItem.text "unused"]⟩
  toolApi := fun _ _ _ => Except.error (Thrown.err "tool exploded")

theorem processQuery_discards_accumulated_witness :
    processQuery envFailsMidway "q10" = "Error: tool exploded" :=
  (processQuery_discards_accumulated envFailsMidway "q10"
    [Event.modelCall [userTurn "q10"] true
      ⟨[ContentItem.text "partial", ContentItem.toolUse "gamma" ⟨"3"⟩]⟩]
    (Thrown.err "tool exploded") rfl).trans rfl

/-- Claim C8: a successful resolution starts the conversation with exactly the
single user turn carrying the query, only ever appends to it, every appended
turn is a user-role turn carrying a tool execution result, each `tool_use` item
causes one append and one follow-up model call, and every model call sees the
base conversation extended by one appended turn at a time. -/
theorem processQuery_conversation_invariant (env : Env) (query : String)
    (response : ModelResponse) (evs : List Event) (msgs : List MessageParam)
    (ft : List String)
    (hresp : env.modelApi [] [userTurn query] true = Except.ok response)
    (hok : processQueryCore env query = Outcome.ok evs msgs ft) :
    ∃ turns,
      msgs = [userTurn query] ++ turns ∧
      (∀ m ∈ turns, m.role = Role.user) ∧
      turns.map MessageParam.content = toolResultsOf evs ∧
      turns.length = (toolUseReqs response.content).length ∧
      evs.map evShape = CallShape.mcT :: shapesOfItems response.content ∧
      modelCallSnaps evs = [userTurn query] :: snapshotChain [userTurn query] turns := by
  simp only [processQueryCore, hresp] at hok
  obtain ⟨extra, turns, he, hm, hsh, htc, hrole, hcont, hsnap⟩ :=
    runItems_ok_spec env response.content _ _ _ _ _ _ hok
  subst he
  refine ⟨turns, hm, hrole, ?_, ?_, ?_, ?_⟩
  · simp only [toolResultsOf, List.filterMap_cons] at hcont ⊢
    simpa using hcont
  · have h1 : turns.length = (toolResultsOf extra).length := by
      rw [← hcont, List.length_map]
    rw [h1, toolResultsOf_length, htc]
  · simp [evShape, hsh]
  · simp only [modelCallSnaps, List.filterMap_cons] at hsnap ⊢
    simp [hsnap]

/-- Environment for the C8 witness: a text item followed by one tool request. -/
def envMixed : Env where
  modelApi := fun _ _ withTools =>
    if withTools then
      Except.ok ⟨[ContentItem.text "hi", ContentItem.toolUse "gamma" ⟨"3"⟩]⟩
    else Except.ok ⟨[ContentItem.text "synth"]⟩
  toolApi := fun _ _ _ => Except.ok "tres"

def c8Response : ModelResponse :=
  ⟨[ContentItem.text "hi", ContentItem.toolUse "gamma" ⟨"3"⟩]⟩

def c8Events : List Event :=
  [Event.modelCall [userTurn "q8"] true c8Response,
   Event.toolCall "gamma" ⟨"3"⟩ "tres",
   Event.modelCall [userTurn "q8", ⟨Role.user, "tres"⟩] false ⟨[ContentItem.text "synth"]⟩]

theorem processQuery_conversation_invariant_witness :
    ∃ turns,
      [userTurn "q8", (⟨Role.user, "tres"⟩ : MessageParam)] = [userTurn "q8"] ++ turns ∧
      (∀ m ∈ turns, m.role = Role.user) ∧
      turns.map MessageParam.content = toolResultsOf c8Events ∧
      turns.length = (toolUseReqs c8Response.content).length ∧
      c8Events.map evShape = CallShape.mcT :: shapesOfItems c8Response.content ∧
      modelCallSnaps c8Events = [userTurn "q8"] :: snapshotChain [userTurn "q8"] turns :=
  processQuery_conversation_invariant envMixed "q8" c8Response c8Events
    [userTurn "q8", ⟨Role.user, "tres"⟩]
    ["hi", callingLine "gamma" ⟨"3"⟩, "synth"] rfl rfl

/-- Environment refuting claim C4 as stated: round 1 requests one tool and the
follow-up response's first content item is a `tool_use`, not text. -/
def envNonTextFollowUp : Env where
  modelApi := fun _ _ withTools =>
    if withTools then Except.ok ⟨[ContentItem.toolUse "tool1" ⟨"7"⟩]⟩
    else Except.ok ⟨[ContentItem.toolUse "tool2" ⟨"8"⟩]⟩
  toolApi := fun _ _ _ => Except.ok "tr"

/-- Claim C4 counterexample: with a single tool-use item whose follow-up first
item is not text, an accumulator without any entry for the follow-up would join
to the diagnostic line alone, but the orchestrator returns the diagnostic line
followed by a trailing newline: the empty-string entry is observable. -/
theorem processQuery_nontext_followup_cex :
    String.intercalate "\n" [callingLine "tool1" ⟨"7"⟩] = "[Calling tool tool1 with args 7]" ∧
    processQuery envNonTextFollowUp "use a tool" =
      "[Calling tool tool1 with args 7]" ++ "\n" ∧
    processQuery envNonTextFollowUp "use a tool" ≠ "[Calling tool tool1 with args 7]" := by
  refine ⟨rfl, rfl, by decide⟩

/-- The first content item of each follow-up (no-catalog) model response in a
trace, in order.  In a completed run every follow-up response has a first item
(an empty one throws), so nothing is dropped. -/
def followUpFirsts (evs : List Event) : List ContentItem :=
  evs.filterMap fun e =>
    match e with
    | Event.modelCall _ false r => r.content.head?
    | Event.modelCall _ true _ => none
    | Event.toolCall _ _ _ => none

/-- The output-accumulator entries predicted per round-1 item, given the first
content items of the successive follow-up responses: a text item contributes
its text; a tool-use item contributes its diagnostic line and then the
follow-up text when the follow-up first item is text, or literally the empty
string when it is not. -/
def expectedEntries : List ContentItem → List ContentItem → List String
  | [], _ => []
  | ContentItem.text s :: rest, firsts => s :: expectedEntries rest firsts
  | ContentItem.toolUse n a :: rest, ContentItem.text s :: firsts =>
      callingLine n a :: s :: expectedEntries rest firsts
  | ContentItem.toolUse n a :: rest, ContentItem.toolUse _ _ :: firsts =>
      callingLine n a :: "" :: expectedEntries rest firsts
  | ContentItem.toolUse _ _ :: _, [] => []

/-- A tool-use item always contributes its diagnostic line and the
`firstText` of its follow-up first item. -/
theorem expectedEntries_tool_cons (n : String) (a : ToolArgs)
    (rest : List ContentItem) (first : ContentItem) (firsts : List ContentItem) :
    expectedEntries (ContentItem.toolUse n a :: rest) (first :: firsts) =
      callingLine n a :: firstText first :: expectedEntries rest firsts := by
  cases first <;> rfl

/-- A completed run of the item loop accumulates exactly the predicted
entries for the items it processed, keyed by the follow-up first items its
own trace records. -/
theorem runItems_ok_entries (env : Env) (items : List ContentItem) :
    ∀ evs0 msgs0 ft0 evs msgs ft,
    runItems env items evs0 msgs0 ft0 = Outcome.ok evs msgs ft →
    ∃ extra, evs = evs0 ++ extra ∧
      ft = ft0 ++ expectedEntries items (followUpFirsts extra) := by
  induction items with
  | nil =>
    intro evs0 msgs0 ft0 evs msgs ft h
    simp only [runItems, Outcome.ok.injEq] at h
    obtain ⟨he, _, hf⟩ := h
    exact ⟨[], by simp [he.symm, hf.symm, expectedEntries]⟩
  | cons item rest ih =>
    intro evs0 msgs0 ft0 evs msgs ft h
    cases item with
    | text s =>
      simp only [runItems] at h
      obtain ⟨extra, he, hf⟩ := ih _ _ _ _ _ _ h
      exact ⟨extra, he, by simp [hf, expectedEntries]⟩
    | toolUse n a =>
      simp only [runItems] at h
      split at h
      · exact Outcome.noConfusion h
      next r htool =>
        split at h
        · exact Outcome.noConfusion h
        next resp hmc =>
          split at h
          · exact Outcome.noConfusion h
          next first tail hc =>
            obtain ⟨extra, he, hf⟩ := ih _ _ _ _ _ _ h
            refine ⟨Event.toolCall n a r ::
              Event.modelCall (msgs0 ++ [⟨Role.user, r⟩]) false resp :: extra,
              by simp [he, List.append_assoc], ?_⟩
            rw [hf]
            simp only [followUpFirsts, List.filterMap_cons, hc, List.head?_cons,
              expectedEntries_tool_cons]
            simp [List.append_assoc]

/-- Claim C4 amended: in every completed resolution, for every `tool_use` item
handled in round 1 whose follow-up response's first content item is not a text
item, the orchestrator appends an empty-string entry to the output accumulator
for that item (the diagnostic line followed by `""`, as `expectedEntries`
states), so the joined return value carries an extra newline separator at that
item's position compared to appending nothing. -/
theorem processQuery_nontext_followup_empty_entry (env : Env) (query : String)
    (response : ModelResponse) (evs : List Event) (msgs : List MessageParam)
    (ft : List String)
    (hresp : env.modelApi [] [userTurn query] true = Except.ok response)
    (hok : processQueryCore env query = Outcome.ok evs msgs ft) :
    ft = expectedEntries response.content (followUpFirsts evs) ∧
    processQuery env query =
      String.intercalate "\n" (expectedEntries response.content (followUpFirsts evs)) := by
  have hq : processQuery env query = String.intercalate "\n" ft := by
    simp [processQuery, hok]
  simp only [processQueryCore, hresp] at hok
  obtain ⟨extra, he, hf⟩ := runItems_ok_entries env response.content _ _ _ _ _ _ hok
  subst he
  have hfu : followUpFirsts
      (Event.modelCall [userTurn query] true response :: extra) =
      followUpFirsts extra := by
    simp [followUpFirsts, List.filterMap_cons]
  have hf2 : ft = expectedEntries response.content
      (followUpFirsts ([Event.modelCall [userTurn query] true response] ++ extra)) := by
    rw [List.singleton_append, hfu]
    simpa using hf
  exact ⟨hf2, by rw [hq, hf2]⟩

/-- Environment for the C4 amended witness: round 1 yields a text item and two
tool requests; the first follow-up response opens with a `tool_use` item (its
entry is the empty string), the second with a text item. -/
def envC4General : Env where
  modelApi := fun _ msgs withTools =>
    if withTools then
      Except.ok ⟨[ContentItem.text "intro", ContentItem.toolUse "t1" ⟨"7"⟩,
        ContentItem.toolUse "t2" ⟨"9"⟩]⟩
    else if msgs.length == 2 then
      Except.ok ⟨[ContentItem.toolUse "x" ⟨"0"⟩]⟩
    else
      Except.ok ⟨[ContentItem.text "synth"]⟩
  toolApi := fun _ _ _ => Except.ok "tr"

def c4Response : ModelResponse :=
  ⟨[ContentItem.text "intro", ContentItem.toolUse "t1" ⟨"7"⟩,
    ContentItem.toolUse "t2" ⟨"9"⟩]⟩

def c4Events : List Event :=
  [Event.modelCall [userTurn "q4"] true c4Response,
   Event.toolCall "t1" ⟨"7"⟩ "tr",
   Event.modelCall [userTurn "q4", ⟨Role.user, "tr"⟩] false
     ⟨[ContentItem.toolUse "x" ⟨"0"⟩]⟩,
   Event.toolCall "t2" ⟨"9"⟩ "tr",
   Event.modelCall [userTurn "q4", ⟨Role.user, "tr"⟩, ⟨Role.user, "tr"⟩] false
     ⟨[ContentItem.text "synth"]⟩]

theorem processQuery_nontext_followup_empty_entry_witness :
    ["intro", callingLine "t1" ⟨"7"⟩, "", callingLine "t2" ⟨"9"⟩, "synth"] =
      expectedEntries c4Response.content (followUpFirsts c4Events) ∧
    processQuery envC4General "q4" =
      String.intercalate "\n" (expectedEntries c4Response.content (followUpFirsts c4Events)) :=
  processQuery_nontext_followup_empty_entry envC4General "q4" c4Response c4Events
    [userTurn "q4", ⟨Role.user, "tr"⟩, ⟨Role.user, "tr"⟩]
    ["intro", callingLine "t1" ⟨"7"⟩, "", callingLine "t2" ⟨"9"⟩, "synth"]
    rfl rfl

/-- Claim C5 counterexample: the input line with a leading space trims and
case-folds to the quit literal, yet the session does not exit there: the raw
line is passed to the orchestrator. -/
theorem chatLoop_trim_cex :
    jsToLowerCase (jsTrim " quit") = "quit" ∧
    chatLoopEvents (fun s => "R:" ++ s) [" quit"] ≠ [SessionEvent.prompt] ∧
    SessionEvent.orchCall " quit" ∈ chatLoopEvents (fun s => "R:" ++ s) [" quit"] := by
  refine ⟨rfl, by decide, by decide⟩

/-- Claim C5 amended: the session loop exits, without another prompt or an
orchestrator call, exactly when the case-folded raw input (without trimming)
equals the quit literal; otherwise the raw line is passed to the orchestrator
and the returned string is printed. -/
theorem chatLoop_quit_untrimmed (orch : String → String) (message : String)
    (rest : List String) :
    (jsToLowerCase message = "quit" →
       chatLoopEvents orch (message :: rest) = [SessionEvent.prompt]) ∧
    (jsToLowerCase message ≠ "quit" →
       chatLoopEvents orch (message :: rest) =
         SessionEvent.prompt :: SessionEvent.orchCall message ::
           SessionEvent.printOut (orch message) :: chatLoopEvents orch rest) := by
  constructor <;> intro h <;> simp [chatLoopEvents, h]

theorem chatLoop_quit_untrimmed_witness :
    chatLoopEvents (fun s => "R:" ++ s) ["QUIT"] = [SessionEvent.prompt] ∧
    chatLoopEvents (fun s => "R:" ++ s) ["hi"] =
      SessionEvent.prompt :: SessionEvent.orchCall "hi" ::
        SessionEvent.printOut ((fun s => "R:" ++ s) "hi") ::
          chatLoopEvents (fun s => "R:" ++ s) [] :=
  ⟨(chatLoop_quit_untrimmed (fun s => "R:" ++ s) "QUIT" []).1 (by decide),
   (chatLoop_quit_untrimmed (fun s => "R:" ++ s) "hi" []).2 (by decide)⟩

/-- Claim C6: a successful connection maps each discovered tool descriptor to
one whose `input_schema` field is the discovered `inputSchema` value unchanged,
with name and description preserved; the produced descriptor type carries no
`inputSchema` field and the mapping is exactly the field rename. -/
theorem connect_schema_rename {σ : Type} (cfg : ConnConfig) (cenv : ConnEnv σ)
    (path : String) (ts : List (DiscoveredTool σ)) (tools : List (Tool σ))
    (evs : List ConnEvent)
    (hlist : cenv.listToolsResult = Except.ok ts)
    (hok : connectToServer cfg cenv path = (Except.ok tools, evs)) :
    tools = ts.map toAnthropicTool ∧
    tools.map Tool.input_schema = ts.map DiscoveredTool.inputSchema ∧
    tools.map Tool.name = ts.map DiscoveredTool.name ∧
    tools.map Tool.description = ts.map DiscoveredTool.description := by
  simp only [connectToServer] at hok
  split at hok
  · simp at hok
  · split at hok
    · simp at hok
    · split at hok
      · simp at hok
      next ts2 heq =>
        rw [hlist] at heq
        injection heq with hts
        subst hts
        simp only [Prod.mk.injEq, Except.ok.injEq] at hok
        obtain ⟨h1, _⟩ := hok
        subst h1
        refine ⟨rfl, ?_, ?_, ?_⟩ <;>
          simp [toAnthropicTool, List.map_map, Function.comp_def]

/-- Concrete host and channel for the C6 witness. -/
def cfgW6 : ConnConfig := ⟨"linux", "/usr/local/bin/node"⟩

def cenvW6 : ConnEnv String :=
  ⟨Except.ok (), Except.ok [⟨"toolA", "descA", "schemaA"⟩]⟩

theorem connect_schema_rename_witness :
    ([⟨"toolA", "descA", "schemaA"⟩] : List (Tool String)) =
      ([⟨"toolA", "descA", "schemaA"⟩] : List (DiscoveredTool String)).map toAnthropicTool ∧
    ([⟨"toolA", "descA", "schemaA"⟩] : List (Tool String)).map Tool.input_schema =
      ([⟨"toolA", "descA", "schemaA"⟩] : List (DiscoveredTool String)).map DiscoveredTool.inputSchema ∧
    ([⟨"toolA", "descA", "schemaA"⟩] : List (Tool String)).map Tool.name =
      ([⟨"toolA", "descA", "schemaA"⟩] : List (DiscoveredTool String)).map DiscoveredTool.name ∧
    ([⟨"toolA", "descA", "schemaA"⟩] : List (Tool String)).map Tool.description =
      ([⟨"toolA", "descA", "schemaA"⟩] : List (DiscoveredTool String)).map DiscoveredTool.description :=
  connect_schema_rename cfgW6 cenvW6 "server.js" [⟨"toolA", "descA", "schemaA"⟩]
    [⟨"toolA", "descA", "schemaA"⟩]
    [ConnEvent.transportCreated "/usr/local/bin/node" "server.js",
     ConnEvent.connected, ConnEvent.toolsListed] rfl rfl

/-- Claim C7: a script path ending in neither supported extension fails with an
error before any transport is created; a path ending in the script-language
extension selects the interpreter by host platform; a path ending in the
native-runtime extension selects the native runtime executable. -/
theorem connect_extension_check {σ : Type} (cfg : ConnConfig) (cenv : ConnEnv σ)
    (path : String) :
    (jsEndsWith path ".js" = false → jsEndsWith path ".py" = false →
       (∃ t, (connectToServer cfg cenv path).1 = Except.error t) ∧
       (connectToServer cfg cenv path).2 = []) ∧
    (jsEndsWith path ".py" = true →
       ∃ rest, (connectToServer cfg cenv path).2 =
         ConnEvent.transportCreated
           (if cfg.platform = "win32" then "python" else "python3") path :: rest) ∧
    (jsEndsWith path ".js" = true → jsEndsWith path ".py" = false →
       ∃ rest, (connectToServer cfg cenv path).2 =
         ConnEvent.transportCreated cfg.execPath path :: rest) := by
  refine ⟨?_, ?_, ?_⟩
  · intro h1 h2
    exact ⟨⟨Thrown.err "Server script must be a .js or .py file",
      by simp [connectToServer, h1, h2]⟩, by simp [connectToServer, h1, h2]⟩
  · intro h2
    cases hcr : cenv.connectResult with
    | error t =>
      exact ⟨[], by simp [connectToServer, h2, hcr, connCommand]⟩
    | ok u =>
      cases hlr : cenv.listToolsResult with
      | error t2 =>
        exact ⟨[ConnEvent.connected],
          by simp [connectToServer, h2, hcr, hlr, connCommand]⟩
      | ok ts =>
        exact ⟨[ConnEvent.connected, ConnEvent.toolsListed],
          by simp [connectToServer, h2, hcr, hlr, connCommand]⟩
  · intro h1 h2
    cases hcr : cenv.connectResult with
    | error t =>
      exact ⟨[], by simp [connectToServer, h1, h2, hcr, connCommand]⟩
    | ok u =>
      cases hlr : cenv.listToolsResult with
      | error t2 =>
        exact ⟨[ConnEvent.connected],
          by simp [connectToServer, h1, h2, hcr, hlr, connCommand]⟩
      | ok ts =>
        exact ⟨[ConnEvent.connected, ConnEvent.toolsListed],
          by simp [connectToServer, h1, h2, hcr, hlr, connCommand]⟩

/-- Concrete host and channel for the C7 witness: a win32 host, so the
script-language interpreter resolves to the win32 command. -/
def cfgW7 : ConnConfig := ⟨"win32", "nodeexe"⟩

def cenvW7 : ConnEnv Unit := ⟨Except.ok (), Except.ok []⟩

theorem connect_extension_check_witness :
    ((∃ t, (connectToServer cfgW7 cenvW7 "server.rb").1 = Except.error t) ∧
       (connectToServer cfgW7 cenvW7 "server.rb").2 = []) ∧
    (∃ rest, (connectToServer cfgW7 cenvW7 "server.py").2 =
       ConnEvent.transportCreated
         (if cfgW7.platform = "win32" then "python" else "python3") "server.py" :: rest) ∧
    (∃ rest, (connectToServer cfgW7 cenvW7 "server.js").2 =
       ConnEvent.transportCreated cfgW7.execPath "server.js" :: rest) :=
  ⟨(connect_extension_check cfgW7 cenvW7 "server.rb").1 (by decide) (by decide),
   (connect_extension_check cfgW7 cenvW7 "server.py").2.1 (by decide),
   (connect_extension_check cfgW7 cenvW7 "server.js").2.2 (by decide) (by decide)⟩

/-- Claim C9: with the credential variable absent the process aborts at the
startup check, before any connection attempt; with it present, startup never
ends in the missing-credential abort. -/
theorem startup_credential_check (argv : List String) (co : Except Thrown Unit) :
    (startup none argv co =
       (StartupResult.abortedMissingKey "ANTHROPIC_API_KEY is not set", []) ∧
     ∀ p, StartupEvent.connectAttempt p ∉ (startup none argv co).2) ∧
    (∀ k message,
       (startup (some k) argv co).1 ≠ StartupResult.abortedMissingKey message) := by
  refine ⟨⟨rfl, ?_⟩, ?_⟩
  · intro p
    simp [startup]
  · intro k message
    simp only [startup]
    split
    · simp
    · split <;> simp

theorem startup_credential_check_witness :
    startup none ["node", "index.js", "server.js"] (Except.ok ()) =
      (StartupResult.abortedMissingKey "ANTHROPIC_API_KEY is not set", []) ∧
    (startup (some "sk-key") ["node", "index.js", "server.js"] (Except.ok ())).1 ≠
      StartupResult.abortedMissingKey "ANTHROPIC_API_KEY is not set" :=
  ⟨(startup_credential_check ["node", "index.js", "server.js"] (Except.ok ())).1.1,
   (startup_credential_check ["node", "index.js", "server.js"] (Except.ok ())).2
     "sk-key" "ANTHROPIC_API_KEY is not set"⟩

end CliMcp
